import Mathlib

/-!
A shallow embedding of `PerfEventViktor.hpp` (`struct PerfEvent`): counter
registration, kernel-handle opening with all-or-nothing failure handling,
the start/stop measurement protocol, multiplexing-corrected counter reads,
and the derived metrics IPC / CPUs / GHz.

Conventions of the embedding:
* `uint64_t` values are natural numbers; `uint64_t` subtraction is `sub64`
  (wraparound modulo `2 ^ 64`).
* C++ `double` arithmetic is modeled over `ℚ`; every equality proved below
  involves only arithmetic that is also exact in IEEE double at the inputs
  concerned (quotients of equal values, small integers, and the literal
  reuse of the very expression the source computes).
* The kernel (`perf_event_open` / `ioctl` / `read` / `close` syscalls) and
  the steady clock are explicit oracles: open results, read results, and
  clock values are parameters, and every operation also returns the list of
  kernel calls it makes (`KernelOp`) together with the diagnostic lines the
  source writes to `std::cerr`.
-/

namespace PerfEventViktor

def U64 : ℕ := 2 ^ 64

/-- Wraparound subtraction of two `uint64_t` values (`a - b` in C++). -/
def sub64 (a b : ℕ) : ℕ := (U64 + a - b) % U64

/-- `PerfEvent::event::read_format`: the three fields read from the kernel
plus the never-read `id` field. -/
structure read_format where
  value : ℕ
  time_enabled : ℕ
  time_running : ℕ
  id : ℕ
  deriving Repr, DecidableEq

def zeroRF : read_format := ⟨0, 0, 0, 0⟩

/-- `perf_event_attr`, restricted to the fields the source assigns after the
`memset` to zero. -/
structure perf_event_attr where
  type : ℕ
  size : ℕ
  config : ℕ
  disabled : Bool
  inherit : ℕ
  inherit_stat : ℕ
  exclude_user : Bool
  exclude_kernel : Bool
  exclude_hv : Bool
  read_format : ℕ
  deriving Repr, DecidableEq

/-- All-zero `perf_event_attr` (the result of the `memset`). -/
def zeroAttr : perf_event_attr := ⟨0, 0, 0, false, 0, 0, false, false, false, 0⟩

/- Constants from `linux/perf_event.h`. -/

def PERF_TYPE_HARDWARE : ℕ := 0
def PERF_TYPE_SOFTWARE : ℕ := 1
def PERF_TYPE_HW_CACHE : ℕ := 3
def PERF_TYPE_RAW : ℕ := 4

def PERF_COUNT_HW_CPU_CYCLES : ℕ := 0
def PERF_COUNT_HW_INSTRUCTIONS : ℕ := 1
def PERF_COUNT_HW_CACHE_MISSES : ℕ := 3
def PERF_COUNT_HW_BRANCH_MISSES : ℕ := 5
def PERF_COUNT_HW_CACHE_L1D : ℕ := 0
def PERF_COUNT_HW_CACHE_OP_READ : ℕ := 0
def PERF_COUNT_HW_CACHE_RESULT_MISS : ℕ := 1
def PERF_COUNT_SW_TASK_CLOCK : ℕ := 1

def PERF_FORMAT_TOTAL_TIME_ENABLED : ℕ := 1
def PERF_FORMAT_TOTAL_TIME_RUNNING : ℕ := 2

/-- `sizeof(struct perf_event_attr)`; the exact value depends on the kernel
header version and no claim below depends on it. -/
def PERF_ATTR_SIZE : ℕ := 128

/-- The attribute record built by `PerfEvent::registerCounter`. -/
def mkAttr (type eventID : ℕ) (exclude_user : Bool) : perf_event_attr :=
  { zeroAttr with
    type := type
    size := PERF_ATTR_SIZE
    config := eventID
    disabled := true
    inherit := 1
    inherit_stat := 0
    exclude_user := exclude_user
    exclude_kernel := false
    exclude_hv := false
    read_format := PERF_FORMAT_TOTAL_TIME_ENABLED ||| PERF_FORMAT_TOTAL_TIME_RUNNING }

/-- `PerfEvent::event`. `event()` value-initializes, so `fd` and the two
snapshots start zeroed. -/
structure event where
  pe : perf_event_attr
  fd : ℤ
  prev : read_format
  data : read_format
  deriving Repr, DecidableEq

/-- `PerfEvent::event::readCounter`: multiplexing-corrected delta between the
`prev` (baseline) and `data` (final) snapshots. `double` is modeled as `ℚ`. -/
def event.readCounter (e : event) : ℚ :=
  let multiplexingCorrection : ℚ :=
    (sub64 e.data.time_enabled e.prev.time_enabled : ℚ) /
      (sub64 e.data.time_running e.prev.time_running : ℚ)
  (sub64 e.data.value e.prev.value : ℚ) * multiplexingCorrection

/-- The state of `struct PerfEvent` (report formatting and the `params` map
are outside the core and not modeled). The two time points are rationals in
seconds. -/
structure PerfEvent where
  events : List event
  names : List String
  startTime : ℚ
  stopTime : ℚ
  printHeader : Bool
  deriving DecidableEq

/-- The member state right after the constructor's init list, before any
`registerCounter` call. -/
def emptyPE : PerfEvent := ⟨[], [], 0, 0, true⟩

/-- One kernel interaction, as recorded in an operation's trace. -/
inductive KernelOp where
  | openCall (pe : perf_event_attr) (ret : ℤ)
  | ioctlReset (fd : ℤ)
  | ioctlEnable (fd : ℤ)
  | ioctlDisable (fd : ℤ)
  | readCall (fd : ℤ) (bytes : ℤ)
  | closeCall (fd : ℤ)
  | clockNow
  deriving Repr, DecidableEq

/-- `PerfEvent::registerCounter`: push the name and a fresh event whose
attribute record is zeroed and then filled in. -/
def registerCounter (p : PerfEvent) (name : String) (type eventID : ℕ)
    (exclude_user : Bool) : PerfEvent :=
  { p with
    names := p.names ++ [name]
    events := p.events ++ [{ pe := mkAttr type eventID exclude_user
                             fd := 0, prev := zeroRF, data := zeroRF }] }

/-- One row of the built-in default counter table. -/
structure CounterSpec where
  name : String
  type : ℕ
  eventID : ℕ
  exclude_user : Bool
  deriving Repr, DecidableEq

/-- The eight `registerCounter` calls of the `PerfEvent` constructor, in
source order. -/
def defaultSpecs : List CounterSpec :=
  [⟨"cycle", PERF_TYPE_HARDWARE, PERF_COUNT_HW_CPU_CYCLES, false⟩,
   ⟨"kcycle", PERF_TYPE_HARDWARE, PERF_COUNT_HW_CPU_CYCLES, true⟩,
   ⟨"scycle", PERF_TYPE_RAW, 0x43FFAE, false⟩,
   ⟨"instr", PERF_TYPE_HARDWARE, PERF_COUNT_HW_INSTRUCTIONS, false⟩,
   ⟨"L1-miss", PERF_TYPE_HW_CACHE,
     PERF_COUNT_HW_CACHE_L1D ||| (PERF_COUNT_HW_CACHE_OP_READ <<< 8) |||
       (PERF_COUNT_HW_CACHE_RESULT_MISS <<< 16), false⟩,
   ⟨"LLC-miss", PERF_TYPE_HARDWARE, PERF_COUNT_HW_CACHE_MISSES, false⟩,
   ⟨"br-miss", PERF_TYPE_HARDWARE, PERF_COUNT_HW_BRANCH_MISSES, false⟩,
   ⟨"task", PERF_TYPE_SOFTWARE, PERF_COUNT_SW_TASK_CLOCK, false⟩]

/-- Run a sequence of `registerCounter` calls. -/
def registerAll (p : PerfEvent) : List CounterSpec → PerfEvent
  | [] => p
  | s :: rest => registerAll (registerCounter p s.name s.type s.eventID s.exclude_user) rest

/-- The registry state after the constructor's eight `registerCounter`
calls, before any handle is opened. -/
def defaultRegistered : PerfEvent := registerAll emptyPE defaultSpecs

/-- The constructor's open loop. `f i` is the file descriptor the
`perf_event_open` syscall returns for the `i`-th attempt. On the first
negative descriptor the loop reports the counter name and signals failure
(`none`), after which the constructor clears both vectors. Returns the
surviving event list, the kernel-call trace, and the stderr lines. -/
def openLoop (f : ℕ → ℤ) (ns : List String) :
    ℕ → List event → Option (List event) × List KernelOp × List String
  | _, [] => (some [], [], [])
  | i, e :: es =>
    if f i < 0 then
      (none, [KernelOp.openCall e.pe (f i)], ["Error opening counter " ++ ns.getD i ""])
    else
      let r := openLoop f ns (i + 1) es
      (r.1.map (fun evs => { e with fd := f i } :: evs),
       KernelOp.openCall e.pe (f i) :: r.2.1, r.2.2)

/-- `PerfEvent::PerfEvent`: register the default counters, then open a
kernel handle for each; if any open fails, `events.resize(0)` and
`names.resize(0)`. -/
def mkPerfEvent (f : ℕ → ℤ) : PerfEvent × List KernelOp × List String :=
  let p := defaultRegistered
  let r := openLoop f p.names 0 p.events
  (match r.1 with
   | some evs => { p with events := evs }
   | none => { p with events := [], names := [] },
   r.2.1, r.2.2)

/-- The loop of `PerfEvent::startCounters`. `rr i` is the content the
kernel's `read` leaves in `events[i].prev` together with the byte count it
returns; a count other than `sizeof(uint64_t) * 3 = 24` produces a stderr
line and nothing else. -/
def startLoop (rr : ℕ → read_format × ℤ) (ns : List String) :
    ℕ → List event → List event × List KernelOp × List String
  | _, [] => ([], [], [])
  | i, e :: es =>
    let r := startLoop rr ns (i + 1) es
    ({ e with prev := (rr i).1 } :: r.1,
     [KernelOp.ioctlReset e.fd, KernelOp.ioctlEnable e.fd,
      KernelOp.readCall e.fd (rr i).2] ++ r.2.1,
     (if (rr i).2 ≠ 24 then ["Error reading counter " ++ ns.getD i ""] else []) ++ r.2.2)

/-- `PerfEvent::startCounters`: per-counter reset / enable / baseline read,
then `startTime = steady_clock::now()` (the clock value `t`). -/
def startCounters (p : PerfEvent) (rr : ℕ → read_format × ℤ) (t : ℚ) :
    PerfEvent × List KernelOp × List String :=
  let r := startLoop rr p.names 0 p.events
  ({ p with events := r.1, startTime := t }, r.2.1 ++ [KernelOp.clockNow], r.2.2)

/-- The loop of `PerfEvent::stopCounters`: per-counter final read into
`events[i].data`, then disable. -/
def stopLoop (rr : ℕ → read_format × ℤ) (ns : List String) :
    ℕ → List event → List event × List KernelOp × List String
  | _, [] => ([], [], [])
  | i, e :: es =>
    let r := stopLoop rr ns (i + 1) es
    ({ e with data := (rr i).1 } :: r.1,
     [KernelOp.readCall e.fd (rr i).2, KernelOp.ioctlDisable e.fd] ++ r.2.1,
     (if (rr i).2 ≠ 24 then ["Error reading counter " ++ ns.getD i ""] else []) ++ r.2.2)

/-- `PerfEvent::stopCounters`: `stopTime = steady_clock::now()` first, then
the per-counter read / disable loop. -/
def stopCounters (p : PerfEvent) (rr : ℕ → read_format × ℤ) (t : ℚ) :
    PerfEvent × List KernelOp × List String :=
  let r := stopLoop rr p.names 0 p.events
  ({ p with events := r.1, stopTime := t }, KernelOp.clockNow :: r.2.1, r.2.2)

/-- `PerfEvent::~PerfEvent`: close every event's file descriptor. -/
def destruct (p : PerfEvent) : List KernelOp :=
  p.events.map (fun e => KernelOp.closeCall e.fd)

/-- `PerfEvent::getDuration` in seconds. -/
def getDuration (p : PerfEvent) : ℚ := p.stopTime - p.startTime

/-- The scan of `PerfEvent::getCounter`: both vectors always have equal
length, and the loop walks them in step. -/
def getCounterAux : List String → List event → String → ℚ
  | n :: ns, e :: es, name => if n = name then e.readCounter else getCounterAux ns es name
  | _, _, _ => -1

/-- `PerfEvent::getCounter`: corrected value of the first counter whose name
matches, `-1` when none does. -/
def getCounter (p : PerfEvent) (name : String) : ℚ :=
  getCounterAux p.names p.events name

/-- `PerfEvent::getIPC`. -/
def getIPC (p : PerfEvent) : ℚ := getCounter p "instr" / getCounter p "cycle"

/-- `PerfEvent::getCPUs`. -/
def getCPUs (p : PerfEvent) : ℚ := getCounter p "task" / (getDuration p * 1000000000)

/-- `PerfEvent::getGHz`. -/
def getGHz (p : PerfEvent) : ℚ := getCounter p "cycle" / getCounter p "task"

/-- Recognize a successful `perf_event_open` call in a trace. -/
def isSuccessfulOpen : KernelOp → Bool
  | .openCall _ r => decide (0 ≤ r)
  | _ => false

/-- Recognize a `close` call in a trace. -/
def isCloseCall : KernelOp → Bool
  | .closeCall _ => true
  | _ => false

/-- Number of successful open calls in a trace. -/
def successfulOpens (ops : List KernelOp) : ℕ := ops.countP isSuccessfulOpen

/-- Number of close calls in a trace. -/
def closeCalls (ops : List KernelOp) : ℕ := ops.countP isCloseCall

/-- The attribute records passed to the open calls of a trace, in order. -/
def openPes (ops : List KernelOp) : List perf_event_attr :=
  ops.filterMap (fun op => match op with | .openCall pe _ => some pe | _ => none)

/-- Spec-side description of the kernel calls of `start()`: "for each
counter, in registration order: reset its accumulated value to zero, enable
it, then read its `(value, time_enabled, time_running)`". -/
def specStartOps (rr : ℕ → read_format × ℤ) : ℕ → List event → List KernelOp
  | _, [] => []
  | i, e :: es =>
    [KernelOp.ioctlReset e.fd, KernelOp.ioctlEnable e.fd,
     KernelOp.readCall e.fd (rr i).2] ++ specStartOps rr (i + 1) es

/-- Spec-side description of the per-counter baseline snapshots taken by
`start()`. -/
def specStartEvents (rr : ℕ → read_format × ℤ) : ℕ → List event → List event
  | _, [] => []
  | i, e :: es => { e with prev := (rr i).1 } :: specStartEvents rr (i + 1) es

/-- Spec-side description of the diagnostics of `start()` / `stop()`:
"reading fewer bytes than expected from the kernel is a non-fatal error
(reported, not thrown)" — one stderr line per short read, and every counter
is still processed. -/
def specShortReadErrs (rr : ℕ → read_format × ℤ) (ns : List String) :
    ℕ → List event → List String
  | _, [] => []
  | i, _ :: es =>
    (if (rr i).2 ≠ 24 then ["Error reading counter " ++ ns.getD i ""] else []) ++
      specShortReadErrs rr ns (i + 1) es

/-- Spec-side description of the kernel calls of `stop()`: "for each counter
read its final snapshot and disable it" (the stop timestamp is taken before
all of this). -/
def specStopOps (rr : ℕ → read_format × ℤ) : ℕ → List event → List KernelOp
  | _, [] => []
  | i, e :: es =>
    [KernelOp.readCall e.fd (rr i).2, KernelOp.ioctlDisable e.fd] ++ specStopOps rr (i + 1) es

/-- Spec-side description of the per-counter final snapshots taken by
`stop()`. -/
def specStopEvents (rr : ℕ → read_format × ℤ) : ℕ → List event → List event
  | _, [] => []
  | i, e :: es => { e with data := (rr i).1 } :: specStopEvents rr (i + 1) es

/-- A concrete event used to instantiate the multiplexing-correction
theorem: zero baseline, final snapshot `(5, 10, 10)`. -/
def eC1 : event := { pe := zeroAttr, fd := 0, prev := zeroRF, data := ⟨5, 10, 10, 0⟩ }

/-- An event with zero baseline, final raw value `v` and equal enabled /
running times, for building synthetic registries. -/
def mkSynthEvent (v en run : ℕ) : event :=
  { pe := zeroAttr, fd := 0, prev := zeroRF, data := ⟨v, en, run, 0⟩ }

/-- Synthetic registry with `instr = 1000`, `cycle = 500`, zero baselines
and equal enabled/running deltas. -/
def ipcRegistry : PerfEvent :=
  { events := [mkSynthEvent 1000 7 7, mkSynthEvent 500 7 7],
    names := ["instr", "cycle"], startTime := 0, stopTime := 1, printHeader := true }

/-- Synthetic registry with `cycle = 3000000000`, `task = 1000000000`
(nanoseconds), zero baselines and equal enabled/running deltas. -/
def ghzRegistry : PerfEvent :=
  { events := [mkSynthEvent 3000000000 5 5, mkSynthEvent 1000000000 5 5],
    names := ["cycle", "task"], startTime := 0, stopTime := 1, printHeader := true }

/-- Open oracle that fails the very first `perf_event_open` call. -/
def failFirstOpen : ℕ → ℤ := fun i => if i = 0 then -1 else 0

/-- Open oracle that rejects every `perf_event_open` call. -/
def failAllOpens : ℕ → ℤ := fun _ => -1

/-- Open oracle whose first success is followed by a failure: the first call
yields descriptor `0`, every later call fails. -/
def openThenFail : ℕ → ℤ := fun i => if i = 0 then 0 else -1

/-- Open oracle that grants descriptors to the first three calls and rejects
the rest. -/
def threeThenFail : ℕ → ℤ := fun i => if i < 3 then 0 else -1

/-! ## Helper lemmas -/

theorem sub64_of_le (a b : ℕ) (hba : b ≤ a) (ha : a < U64) : sub64 a b = a - b := by
  unfold sub64
  rw [show U64 + a - b = U64 + (a - b) by omega, Nat.add_mod_left]
  exact Nat.mod_eq_of_lt (by omega)

theorem getCounterAux_eq_find (ns : List String) (es : List event) (name : String) :
    getCounterAux ns es name =
      ((ns.zip es).find? (fun x => x.1 == name)).elim (-1) (fun x => x.2.readCounter) := by
  induction ns generalizing es with
  | nil => cases es <;> simp [getCounterAux]
  | cons n ns ih =>
    cases es with
    | nil => simp [getCounterAux]
    | cons e es =>
      rw [List.zip_cons_cons, List.find?]
      by_cases h : n = name
      · simp [getCounterAux, h]
      · simp only [getCounterAux, if_neg h, ih]
        have : (n == name) = false := by simp [h]
        simp [this]

theorem getCounterAux_nil (es : List event) (name : String) :
    getCounterAux [] es name = -1 := by
  cases es <;> rfl

theorem openLoop_isNone (f : ℕ → ℤ) (ns : List String) :
    ∀ (es : List event) (i : ℕ), (∃ j, j < es.length ∧ f (i + j) < 0) →
      (openLoop f ns i es).1 = none := by
  intro es
  induction es with
  | nil =>
    rintro i ⟨j, hj, -⟩
    exact absurd hj (by simp)
  | cons e es ih =>
    rintro i ⟨j, hj, hneg⟩
    by_cases h : f i < 0
    · simp [openLoop, h]
    · cases j with
      | zero => exact absurd hneg (by simpa using h)
      | succ k =>
        have hrec := ih (i + 1)
          ⟨k, by simpa using hj, by rwa [show i + 1 + k = i + (k + 1) by omega]⟩
        simp [openLoop, h, hrec]

theorem openLoop_success (f : ℕ → ℤ) (ns : List String) :
    ∀ (es : List event) (i : ℕ), (∀ j, j < es.length → 0 ≤ f (i + j)) →
      ∃ evs, (openLoop f ns i es).1 = some evs ∧ evs.map event.pe = es.map event.pe := by
  intro es
  induction es with
  | nil => exact fun i _ => ⟨[], rfl, rfl⟩
  | cons e es ih =>
    intro i hall
    have h0 : 0 ≤ f i := by simpa using hall 0 (by simp)
    have hnot : ¬ f i < 0 := not_lt.mpr h0
    obtain ⟨evs, h1, h2⟩ := ih (i + 1) (fun j hj => by
      rw [show i + 1 + j = i + (j + 1) by omega]
      exact hall (j + 1) (by simpa using hj))
    refine ⟨{ e with fd := f i } :: evs, ?_, ?_⟩
    · simp [openLoop, hnot, h1]
    · simp [h2]

theorem openLoop_trace_success (f : ℕ → ℤ) (ns : List String) :
    ∀ (es : List event) (i : ℕ), (∀ j, j < es.length → 0 ≤ f (i + j)) →
      openPes (openLoop f ns i es).2.1 = es.map event.pe ∧
      successfulOpens (openLoop f ns i es).2.1 = es.length ∧
      (openLoop f ns i es).2.2 = [] := by
  intro es
  induction es with
  | nil => exact fun i _ => ⟨rfl, rfl, rfl⟩
  | cons e es ih =>
    intro i hall
    have h0 : 0 ≤ f i := by simpa using hall 0 (by simp)
    have hnot : ¬ f i < 0 := not_lt.mpr h0
    obtain ⟨h1, h2, h3⟩ := ih (i + 1) (fun j hj => by
      rw [show i + 1 + j = i + (j + 1) by omega]
      exact hall (j + 1) (by simpa using hj))
    refine ⟨?_, ?_, ?_⟩
    · simp [openLoop, hnot, openPes] at h1 ⊢
      exact h1
    · simp [openLoop, hnot, successfulOpens, List.countP_cons, isSuccessfulOpen, h0]
        at h2 ⊢
      simpa [successfulOpens] using h2
    · simp [openLoop, hnot, h3]

theorem openLoop_first_failure (f : ℕ → ℤ) (ns : List String) :
    ∀ (es : List event) (i k : ℕ), k < es.length → f (i + k) < 0 →
      (∀ j, j < k → 0 ≤ f (i + j)) →
      successfulOpens (openLoop f ns i es).2.1 = k ∧ (openLoop f ns i es).1 = none := by
  intro es
  induction es with
  | nil =>
    intro i k hk
    exact absurd hk (by simp)
  | cons e es ih =>
    intro i k hk hneg hbefore
    cases k with
    | zero =>
      have h : f i < 0 := by simpa using hneg
      refine ⟨?_, by simp [openLoop, h]⟩
      simp [openLoop, h, successfulOpens, List.countP_cons, isSuccessfulOpen, not_le.mpr h]
    | succ k =>
      have h0 : 0 ≤ f i := by simpa using hbefore 0 (Nat.succ_pos k)
      have hnot : ¬ f i < 0 := not_lt.mpr h0
      obtain ⟨ha, hb⟩ := ih (i + 1) k (by simpa using hk)
        (by rwa [show i + 1 + k = i + (k + 1) by omega])
        (fun j hj => by
          rw [show i + 1 + j = i + (j + 1) by omega]
          exact hbefore (j + 1) (by omega))
      constructor
      · simp [openLoop, hnot, successfulOpens, List.countP_cons, isSuccessfulOpen, h0]
        simpa [successfulOpens] using ha
      · simp [openLoop, hnot, hb]

theorem closeCalls_map_close (es : List event) :
    closeCalls (es.map (fun e => KernelOp.closeCall e.fd)) = es.length := by
  induction es with
  | nil => rfl
  | cons e es ih => simp [closeCalls, List.countP_cons, isCloseCall, ih]

theorem startLoop_no_open_close (rr : ℕ → read_format × ℤ) (ns : List String) :
    ∀ (es : List event) (i : ℕ),
      successfulOpens (startLoop rr ns i es).2.1 = 0 ∧
      closeCalls (startLoop rr ns i es).2.1 = 0 := by
  intro es
  induction es with
  | nil => exact fun i => ⟨rfl, rfl⟩
  | cons e es ih =>
    intro i
    obtain ⟨h1, h2⟩ := ih (i + 1)
    constructor
    · simpa [startLoop, successfulOpens, List.countP_cons, List.countP_append,
        isSuccessfulOpen] using h1
    · simpa [startLoop, closeCalls, List.countP_cons, List.countP_append,
        isCloseCall] using h2

theorem stopLoop_no_open_close (rr : ℕ → read_format × ℤ) (ns : List String) :
    ∀ (es : List event) (i : ℕ),
      successfulOpens (stopLoop rr ns i es).2.1 = 0 ∧
      closeCalls (stopLoop rr ns i es).2.1 = 0 := by
  intro es
  induction es with
  | nil => exact fun i => ⟨rfl, rfl⟩
  | cons e es ih =>
    intro i
    obtain ⟨h1, h2⟩ := ih (i + 1)
    constructor
    · simpa [stopLoop, successfulOpens, List.countP_cons, List.countP_append,
        isSuccessfulOpen] using h1
    · simpa [stopLoop, closeCalls, List.countP_cons, List.countP_append,
        isCloseCall] using h2

theorem defaultRegistered_events_length : defaultRegistered.events.length = 8 := by decide

theorem mkPerfEvent_trace (f : ℕ → ℤ) :
    (mkPerfEvent f).2 = ((openLoop f defaultRegistered.names 0 defaultRegistered.events).2.1,
      (openLoop f defaultRegistered.names 0 defaultRegistered.events).2.2) := rfl

theorem mkPerfEvent_none (f : ℕ → ℤ)
    (h : (openLoop f defaultRegistered.names 0 defaultRegistered.events).1 = none) :
    (mkPerfEvent f).1 = { defaultRegistered with events := [], names := [] } := by
  unfold mkPerfEvent
  simp only [h]

theorem mkPerfEvent_some (f : ℕ → ℤ) (evs : List event)
    (h : (openLoop f defaultRegistered.names 0 defaultRegistered.events).1 = some evs) :
    (mkPerfEvent f).1 = { defaultRegistered with events := evs } := by
  unfold mkPerfEvent
  simp only [h]

/-! ## Claim theorems -/

/-- C1: for every baseline/final snapshot pair (stored in an event as
`prev`/`data`, with in-range and monotone fields) with
`runningDelta = final.timeRunning - baseline.timeRunning > 0`, the value
returned by `readCounter` is
`(final.rawValue - baseline.rawValue) * ((final.timeEnabled - baseline.timeEnabled) / runningDelta)`,
and when `enabledDelta = runningDelta` (no multiplexing) it is exactly the
raw delta `final.rawValue - baseline.rawValue`. -/
theorem readCounter_multiplexing_correction (e : event)
    (hv : e.prev.value ≤ e.data.value) (hv' : e.data.value < U64)
    (he : e.prev.time_enabled ≤ e.data.time_enabled) (he' : e.data.time_enabled < U64)
    (hr : e.prev.time_running ≤ e.data.time_running) (hr' : e.data.time_running < U64)
    (hpos : 0 < e.data.time_running - e.prev.time_running) :
    e.readCounter = ((e.data.value - e.prev.value : ℕ) : ℚ) *
        (((e.data.time_enabled - e.prev.time_enabled : ℕ) : ℚ) /
          ((e.data.time_running - e.prev.time_running : ℕ) : ℚ)) ∧
      (e.data.time_enabled - e.prev.time_enabled = e.data.time_running - e.prev.time_running →
        e.readCounter = ((e.data.value - e.prev.value : ℕ) : ℚ)) := by
  have h1 := sub64_of_le _ _ hv hv'
  have h2 := sub64_of_le _ _ he he'
  have h3 := sub64_of_le _ _ hr hr'
  have hformula : e.readCounter = ((e.data.value - e.prev.value : ℕ) : ℚ) *
      (((e.data.time_enabled - e.prev.time_enabled : ℕ) : ℚ) /
        ((e.data.time_running - e.prev.time_running : ℕ) : ℚ)) := by
    unfold event.readCounter
    rw [h1, h2, h3]
  refine ⟨hformula, fun heq => ?_⟩
  rw [hformula, heq]
  have hne : ((e.data.time_running - e.prev.time_running : ℕ) : ℚ) ≠ 0 :=
    ne_of_gt (by exact_mod_cast hpos)
  rw [div_self hne, mul_one]

/-- Concrete instance of the C1 theorem: baseline all zero, final snapshot
`(5, 10, 10)`. -/
theorem readCounter_multiplexing_correction_witness :
    eC1.readCounter = ((eC1.data.value - eC1.prev.value : ℕ) : ℚ) *
        (((eC1.data.time_enabled - eC1.prev.time_enabled : ℕ) : ℚ) /
          ((eC1.data.time_running - eC1.prev.time_running : ℕ) : ℚ)) ∧
      (eC1.data.time_enabled - eC1.prev.time_enabled =
          eC1.data.time_running - eC1.prev.time_running →
        eC1.readCounter = ((eC1.data.value - eC1.prev.value : ℕ) : ℚ)) :=
  readCounter_multiplexing_correction eC1 (by decide) (by decide) (by decide) (by decide)
    (by decide) (by decide) (by decide)

/-- C4: `getCounter` scans registration order and returns the corrected
value of the first counter whose name matches; when no name matches it
returns the sentinel `-1`. -/
theorem getCounter_first_match_or_sentinel (p : PerfEvent) (name : String) :
    getCounter p name =
      ((p.names.zip p.events).find? (fun x => x.1 == name)).elim (-1)
        (fun x => x.2.readCounter) :=
  getCounterAux_eq_find p.names p.events name

/-- C2: if any one of the eight open attempts of the constructor fails, the
resulting registry has zero counter entries and zero names, and subsequent
start / stop / read operations are safe no-ops: start and stop touch no
counter (their only trace entry is the clock read), report nothing, and
leave no events, and every name lookup yields the sentinel `-1`. -/
theorem open_failure_invalidates_registry (f : ℕ → ℤ) (h : ∃ i, i < 8 ∧ f i < 0) :
    (mkPerfEvent f).1.events = [] ∧ (mkPerfEvent f).1.names = [] ∧
    (∀ rr t, (startCounters (mkPerfEvent f).1 rr t).2.1 = [KernelOp.clockNow] ∧
      (startCounters (mkPerfEvent f).1 rr t).2.2 = [] ∧
      (startCounters (mkPerfEvent f).1 rr t).1.events = []) ∧
    (∀ rr t, (stopCounters (mkPerfEvent f).1 rr t).2.1 = [KernelOp.clockNow] ∧
      (stopCounters (mkPerfEvent f).1 rr t).2.2 = [] ∧
      (stopCounters (mkPerfEvent f).1 rr t).1.events = []) ∧
    (∀ name, getCounter (mkPerfEvent f).1 name = -1) := by
  obtain ⟨i, hi, hneg⟩ := h
  have hnone := openLoop_isNone f defaultRegistered.names defaultRegistered.events 0
    ⟨i, by rw [defaultRegistered_events_length]; exact hi, by simpa using hneg⟩
  have hp := mkPerfEvent_none f hnone
  rw [hp]
  exact ⟨rfl, rfl, fun rr t => ⟨rfl, rfl, rfl⟩, fun rr t => ⟨rfl, rfl, rfl⟩,
    fun name => getCounterAux_nil _ _⟩

/-- Instance of the C2 theorem at the oracle that fails the first open. -/
theorem open_failure_invalidates_registry_witness :
    (mkPerfEvent failFirstOpen).1.events = [] ∧ (mkPerfEvent failFirstOpen).1.names = [] ∧
    (∀ rr t, (startCounters (mkPerfEvent failFirstOpen).1 rr t).2.1 = [KernelOp.clockNow] ∧
      (startCounters (mkPerfEvent failFirstOpen).1 rr t).2.2 = [] ∧
      (startCounters (mkPerfEvent failFirstOpen).1 rr t).1.events = []) ∧
    (∀ rr t, (stopCounters (mkPerfEvent failFirstOpen).1 rr t).2.1 = [KernelOp.clockNow] ∧
      (stopCounters (mkPerfEvent failFirstOpen).1 rr t).2.2 = [] ∧
      (stopCounters (mkPerfEvent failFirstOpen).1 rr t).1.events = []) ∧
    (∀ name, getCounter (mkPerfEvent failFirstOpen).1 name = -1) :=
  open_failure_invalidates_registry failFirstOpen ⟨0, by norm_num, by decide⟩

/-- C3 counterexample: with an oracle whose first open succeeds
(descriptor 0) and whose second open fails, the constructor performs one
successful open, but `events.resize(0)` discards the opened descriptor and
the destructor therefore closes nothing — successful opens do not equal
closes over the registry's lifetime. -/
theorem open_close_mismatch_counterexample :
    successfulOpens (mkPerfEvent openThenFail).2.1 = 1 ∧
    closeCalls (destruct (mkPerfEvent openThenFail).1) = 0 ∧
    successfulOpens (mkPerfEvent openThenFail).2.1 ≠
      closeCalls (destruct (mkPerfEvent openThenFail).1) := by
  refine ⟨by decide, by decide, by decide⟩

/-- C3 amended: the destructor closes exactly the handles the registry still
owns — the number of close calls always equals the number of registry
entries, start/stop perform no open or close, and when all eight opens
succeed the successful opens equal the closes; but when construction fails
at the first failing attempt `k`, the `k` handles opened before it are
discarded without a close (successful opens = `k`, closes = `0`). -/
theorem destructor_closes_owned_handles (f : ℕ → ℤ) :
    closeCalls (destruct (mkPerfEvent f).1) = (mkPerfEvent f).1.events.length ∧
    (∀ p rr t, successfulOpens (startCounters p rr t).2.1 = 0 ∧
      closeCalls (startCounters p rr t).2.1 = 0 ∧
      successfulOpens (stopCounters p rr t).2.1 = 0 ∧
      closeCalls (stopCounters p rr t).2.1 = 0) ∧
    ((∀ i, i < 8 → 0 ≤ f i) →
      successfulOpens (mkPerfEvent f).2.1 = closeCalls (destruct (mkPerfEvent f).1)) ∧
    (∀ k, k < 8 → f k < 0 → (∀ j, j < k → 0 ≤ f j) →
      successfulOpens (mkPerfEvent f).2.1 = k ∧
      closeCalls (destruct (mkPerfEvent f).1) = 0) := by
  refine ⟨closeCalls_map_close _, ?_, ?_, ?_⟩
  · intro p rr t
    obtain ⟨hs1, hs2⟩ := startLoop_no_open_close rr p.names p.events 0
    obtain ⟨ht1, ht2⟩ := stopLoop_no_open_close rr p.names p.events 0
    refine ⟨?_, ?_, ?_, ?_⟩
    · simpa [startCounters, successfulOpens, List.countP_append, isSuccessfulOpen]
        using hs1
    · simpa [startCounters, closeCalls, List.countP_append, isCloseCall] using hs2
    · simpa [stopCounters, successfulOpens, List.countP_cons, isSuccessfulOpen]
        using ht1
    · simpa [stopCounters, closeCalls, List.countP_cons, isCloseCall] using ht2
  · intro hall
    have hall' : ∀ j, j < defaultRegistered.events.length → 0 ≤ f (0 + j) := by
      intro j hj
      rw [defaultRegistered_events_length] at hj
      simpa using hall j hj
    obtain ⟨evs, hsome, hmap⟩ :=
      openLoop_success f defaultRegistered.names defaultRegistered.events 0 hall'
    obtain ⟨-, hcount, -⟩ :=
      openLoop_trace_success f defaultRegistered.names defaultRegistered.events 0 hall'
    have hp := mkPerfEvent_some f evs hsome
    rw [mkPerfEvent_trace, hp]
    simp only [destruct]
    rw [closeCalls_map_close]
    have hlen : evs.length = defaultRegistered.events.length := by
      have := congrArg List.length hmap
      simpa using this
    simp only [hcount, hlen]
  · intro k hk hneg hbefore
    obtain ⟨hcount, hnone⟩ := openLoop_first_failure f defaultRegistered.names
      defaultRegistered.events 0 k (by rw [defaultRegistered_events_length]; exact hk)
      (by simpa using hneg) (fun j hj => by simpa using hbefore j hj)
    have hp := mkPerfEvent_none f hnone
    rw [mkPerfEvent_trace, hp]
    exact ⟨hcount, rfl⟩

/-- Instance of the amended C3 theorem at the oracle that grants three
descriptors and then fails: three successful opens, zero closes. -/
theorem destructor_closes_owned_handles_witness :
    closeCalls (destruct (mkPerfEvent threeThenFail).1) =
      (mkPerfEvent threeThenFail).1.events.length ∧
    (successfulOpens (mkPerfEvent threeThenFail).2.1 = 3 ∧
      closeCalls (destruct (mkPerfEvent threeThenFail).1) = 0) :=
  ⟨(destructor_closes_owned_handles threeThenFail).1,
   (destructor_closes_owned_handles threeThenFail).2.2.2 3 (by norm_num) (by decide)
     (fun j hj => by unfold threeThenFail; rw [if_pos hj])⟩

/-- C5: the derived metrics are exactly `getIPC = instr / cycle`,
`getCPUs = task / (duration * 1e9)` and `getGHz = cycle / task` over named
corrected values; on the synthetic registry with `instr = 1000`,
`cycle = 500` (zero baseline, equal enabled/running deltas) `getIPC` is
exactly `2`, and with `cycle = 3000000000`, `task = 1000000000` `getGHz` is
exactly `3`. -/
theorem derived_metric_formulas :
    (∀ p : PerfEvent, getIPC p = getCounter p "instr" / getCounter p "cycle") ∧
    (∀ p : PerfEvent, getCPUs p = getCounter p "task" / (getDuration p * 1000000000)) ∧
    (∀ p : PerfEvent, getGHz p = getCounter p "cycle" / getCounter p "task") ∧
    getIPC ipcRegistry = 2 ∧ getGHz ghzRegistry = 3 :=
  ⟨fun _ => rfl, fun _ => rfl, fun _ => rfl,
   by
     norm_num [getIPC, getCounter, getCounterAux, event.readCounter, ipcRegistry,
       mkSynthEvent, zeroRF, sub64, U64]
     rw [if_neg (by decide)]
     norm_num,
   by
     norm_num [getGHz, getCounter, getCounterAux, event.readCounter, ghzRegistry,
       mkSynthEvent, zeroRF, sub64, U64]
     rw [if_neg (by decide)]
     norm_num⟩

/-- C6: `startCounters` handles every counter in registration order with
reset, then enable, then baseline read; the wall-clock start timestamp is
recorded only after all counters are processed (it is the last trace
entry); a short read only emits a diagnostic line — later counters are
still processed and nothing is thrown. -/
theorem start_protocol (p : PerfEvent) (rr : ℕ → read_format × ℤ) (t : ℚ) :
    (startCounters p rr t).2.1 = specStartOps rr 0 p.events ++ [KernelOp.clockNow] ∧
    (startCounters p rr t).1.events = specStartEvents rr 0 p.events ∧
    (startCounters p rr t).1.startTime = t ∧
    (startCounters p rr t).2.2 = specShortReadErrs rr p.names 0 p.events ∧
    (startCounters p rr t).1.names = p.names := by
  have key : ∀ (es : List event) (i : ℕ), startLoop rr p.names i es =
      (specStartEvents rr i es, specStartOps rr i es, specShortReadErrs rr p.names i es) := by
    intro es
    induction es with
    | nil => exact fun i => rfl
    | cons e es ih =>
      intro i
      simp [startLoop, specStartEvents, specStartOps, specShortReadErrs, ih]
  refine ⟨?_, ?_, rfl, ?_, rfl⟩ <;> simp [startCounters, key]

/-- C7: `stopCounters` records the wall-clock stop timestamp before
touching any counter (it is the first trace entry), then for each counter
in registration order reads the final snapshot and then disables it. -/
theorem stop_protocol (p : PerfEvent) (rr : ℕ → read_format × ℤ) (t : ℚ) :
    (stopCounters p rr t).2.1 = KernelOp.clockNow :: specStopOps rr 0 p.events ∧
    (stopCounters p rr t).1.events = specStopEvents rr 0 p.events ∧
    (stopCounters p rr t).1.stopTime = t ∧
    (stopCounters p rr t).2.2 = specShortReadErrs rr p.names 0 p.events ∧
    (stopCounters p rr t).1.names = p.names := by
  have key : ∀ (es : List event) (i : ℕ), stopLoop rr p.names i es =
      (specStopEvents rr i es, specStopOps rr i es, specShortReadErrs rr p.names i es) := by
    intro es
    induction es with
    | nil => exact fun i => rfl
    | cons e es ih =>
      intro i
      simp [stopLoop, specStopEvents, specStopOps, specShortReadErrs, ih]
  refine ⟨?_, ?_, rfl, ?_, rfl⟩ <;> simp [stopCounters, key]

/-- C8: registering counters appends names and attribute records in
registration order (so `N` successful registrations give exactly `N`
entries with the `i`-th name matching the `i`-th event), and the
constructor under a fully successful open oracle yields exactly the eight
default counters cycle, kcycle, scycle, instr, L1-miss, LLC-miss, br-miss,
task in that order, attribute records included. -/
theorem registry_registration_order :
    (∀ specs : List CounterSpec,
      (registerAll emptyPE specs).names = specs.map (fun s => s.name) ∧
      (registerAll emptyPE specs).events.map event.pe =
        specs.map (fun s => mkAttr s.type s.eventID s.exclude_user)) ∧
    ∀ f : ℕ → ℤ, (∀ i, i < 8 → 0 ≤ f i) →
      (mkPerfEvent f).1.names =
        ["cycle", "kcycle", "scycle", "instr", "L1-miss", "LLC-miss", "br-miss", "task"] ∧
      (mkPerfEvent f).1.events.length = 8 ∧
      (mkPerfEvent f).1.events.map event.pe =
        defaultSpecs.map (fun s => mkAttr s.type s.eventID s.exclude_user) := by
  have hreg : ∀ (specs : List CounterSpec) (p : PerfEvent),
      (registerAll p specs).names = p.names ++ specs.map (fun s => s.name) ∧
      (registerAll p specs).events.map event.pe =
        p.events.map event.pe ++ specs.map (fun s => mkAttr s.type s.eventID s.exclude_user) := by
    intro specs
    induction specs with
    | nil => intro p; simp [registerAll]
    | cons s ss ih =>
      intro p
      obtain ⟨h1, h2⟩ := ih (registerCounter p s.name s.type s.eventID s.exclude_user)
      constructor
      · rw [registerAll, h1]
        simp [registerCounter]
      · rw [registerAll, h2]
        simp [registerCounter]
  constructor
  · intro specs
    have := hreg specs emptyPE
    simpa [emptyPE] using this
  · intro f hall
    have hall' : ∀ j, j < defaultRegistered.events.length → 0 ≤ f (0 + j) := by
      intro j hj
      rw [defaultRegistered_events_length] at hj
      simpa using hall j hj
    obtain ⟨evs, hsome, hmap⟩ :=
      openLoop_success f defaultRegistered.names defaultRegistered.events 0 hall'
    have hp := mkPerfEvent_some f evs hsome
    rw [hp]
    have hlen : evs.length = 8 := by
      have := congrArg List.length hmap
      rw [List.length_map, List.length_map, defaultRegistered_events_length] at this
      exact this
    refine ⟨?_, hlen, ?_⟩
    · show defaultRegistered.names = _
      decide
    · show evs.map event.pe = _
      rw [hmap]
      decide

/-- Instance of the C8 theorem at the all-success oracle `f i = i`. -/
theorem registry_registration_order_witness :
    (mkPerfEvent (fun i => (i : ℤ))).1.names =
      ["cycle", "kcycle", "scycle", "instr", "L1-miss", "LLC-miss", "br-miss", "task"] ∧
    (mkPerfEvent (fun i => (i : ℤ))).1.events.length = 8 ∧
    (mkPerfEvent (fun i => (i : ℤ))).1.events.map event.pe =
      defaultSpecs.map (fun s => mkAttr s.type s.eventID s.exclude_user) :=
  registry_registration_order.2 (fun i => (i : ℤ)) (fun i _ => Int.ofNat_nonneg i)

/-- C9: every attribute record handed to `perf_event_open` is the one
registered for the corresponding counter, and each is configured disabled,
inheriting into children, with the enabled/running time pair in its read
format, not excluding kernel or hypervisor samples; user-space exclusion is
set solely for the second counter, named "kcycle". -/
theorem open_attr_configuration (f : ℕ → ℤ) (hall : ∀ i, i < 8 → 0 ≤ f i) :
    openPes (mkPerfEvent f).2.1 = defaultRegistered.events.map event.pe ∧
    (openPes (mkPerfEvent f).2.1).map perf_event_attr.disabled = List.replicate 8 true ∧
    (openPes (mkPerfEvent f).2.1).map perf_event_attr.inherit = List.replicate 8 1 ∧
    (openPes (mkPerfEvent f).2.1).map perf_event_attr.read_format =
      List.replicate 8 (PERF_FORMAT_TOTAL_TIME_ENABLED ||| PERF_FORMAT_TOTAL_TIME_RUNNING) ∧
    (openPes (mkPerfEvent f).2.1).map perf_event_attr.exclude_kernel =
      List.replicate 8 false ∧
    (openPes (mkPerfEvent f).2.1).map perf_event_attr.exclude_hv = List.replicate 8 false ∧
    (openPes (mkPerfEvent f).2.1).map perf_event_attr.exclude_user =
      [false, true, false, false, false, false, false, false] ∧
    (mkPerfEvent f).1.names.getD 1 "" = "kcycle" := by
  have hall' : ∀ j, j < defaultRegistered.events.length → 0 ≤ f (0 + j) := by
    intro j hj
    rw [defaultRegistered_events_length] at hj
    simpa using hall j hj
  obtain ⟨hpes, -, -⟩ :=
    openLoop_trace_success f defaultRegistered.names defaultRegistered.events 0 hall'
  obtain ⟨evs, hsome, hmap⟩ :=
    openLoop_success f defaultRegistered.names defaultRegistered.events 0 hall'
  have htrace : openPes (mkPerfEvent f).2.1 = defaultRegistered.events.map event.pe := by
    rw [mkPerfEvent_trace]
    exact hpes
  have hnames : (mkPerfEvent f).1.names = defaultRegistered.names := by
    rw [mkPerfEvent_some f evs hsome]
  rw [htrace, hnames]
  exact ⟨rfl, by decide, by decide, by decide, by decide, by decide, by decide, by decide⟩

/-- Instance of the C9 theorem at the all-success oracle `f i = i + 3`. -/
theorem open_attr_configuration_witness :
    openPes (mkPerfEvent (fun i => (i : ℤ) + 3)).2.1 =
      defaultRegistered.events.map event.pe ∧
    (openPes (mkPerfEvent (fun i => (i : ℤ) + 3)).2.1).map perf_event_attr.disabled =
      List.replicate 8 true ∧
    (openPes (mkPerfEvent (fun i => (i : ℤ) + 3)).2.1).map perf_event_attr.inherit =
      List.replicate 8 1 ∧
    (openPes (mkPerfEvent (fun i => (i : ℤ) + 3)).2.1).map perf_event_attr.read_format =
      List.replicate 8 (PERF_FORMAT_TOTAL_TIME_ENABLED ||| PERF_FORMAT_TOTAL_TIME_RUNNING) ∧
    (openPes (mkPerfEvent (fun i => (i : ℤ) + 3)).2.1).map perf_event_attr.exclude_kernel =
      List.replicate 8 false ∧
    (openPes (mkPerfEvent (fun i => (i : ℤ) + 3)).2.1).map perf_event_attr.exclude_hv =
      List.replicate 8 false ∧
    (openPes (mkPerfEvent (fun i => (i : ℤ) + 3)).2.1).map perf_event_attr.exclude_user =
      [false, true, false, false, false, false, false, false] ∧
    (mkPerfEvent (fun i => (i : ℤ) + 3)).1.names.getD 1 "" = "kcycle" :=
  open_attr_configuration (fun i => (i : ℤ) + 3)
    (fun i _ => by positivity)

/-- C10: on a registry with zero entries (such as one invalidated by a
failed open), every lookup returns the sentinel `-1`, and therefore
`getIPC` and `getGHz` both return exactly `1` (the sentinel divided by
itself) — plausible-looking values, with no error signalled. -/
theorem empty_registry_sentinel_metrics (p : PerfEvent) (h : p.names = []) :
    (∀ name, getCounter p name = -1) ∧ getIPC p = 1 ∧ getGHz p = 1 := by
  have hc : ∀ name, getCounter p name = -1 := by
    intro name
    unfold getCounter
    rw [h]
    exact getCounterAux_nil _ _
  refine ⟨hc, ?_, ?_⟩
  · unfold getIPC
    rw [hc, hc]
    norm_num
  · unfold getGHz
    rw [hc, hc]
    norm_num

/-- Instance of the C10 theorem at the registry produced by an oracle that
rejects every open. -/
theorem empty_registry_sentinel_metrics_witness :
    (∀ name, getCounter (mkPerfEvent failAllOpens).1 name = -1) ∧
    getIPC (mkPerfEvent failAllOpens).1 = 1 ∧ getGHz (mkPerfEvent failAllOpens).1 = 1 :=
  empty_registry_sentinel_metrics (mkPerfEvent failAllOpens).1 (by decide)

end PerfEventViktor
